import Mathlib

/-
Shallow embedding of the pixel-indexing and coordinate-mapping core of
image_novice/novice.py (classes Pixel and Picture).

Modelling choices, all taken from the source:
  * The backing numpy uint8 array of shape (H, W, 3) is modelled as a root
    grid `Grid : Nat → Nat → RGB` holding the RGB triple of every root cell,
    threaded explicitly through every mutating operation (Python mutates the
    shared array in place; here each write returns the updated grid).
  * A `Picture` value is a view on a root grid: `rows` maps the internal row index of the picture (row 0 at the top, as in the numpy array) to a root
    row, and `cols` maps an internal column to a root column.  A picture
    built directly from an array is the identity view `rows = range h`,
    `cols = range w`.  Slicing composes views exactly as numpy basic
    slicing does, since `Picture.from_array` stores a uint8 slice without
    copying; two pictures over the same grid alias each other.
  * Python exceptions are an `Except PyErr` result; `ValueError`,
    `TypeError` and `IndexError` are distinguished because `except
    ValueError` in `Pixel._validate` and `Picture.inflation` catches only
    the first.
  * Python values fed to `int(...)` coercion are a `PyVal`: an int, a float
    (modelled as an exact rational; `int()` truncates toward zero), a
    string (`int(str)` parses or raises ValueError), or None (`int(None)`
    raises TypeError).  NaN/infinity floats and negative or zero slice
    steps are outside the model; no claim touches them.
  * Slice keys follow Python semantics for positive steps: missing start is
    0, missing stop is the axis extent, negative bounds wrap from the end
    and everything clamps to the extent.  This wrapping matters because
    `Picture._verify_key` flips the y slice with plain subtraction, which
    can produce negative internal bounds.
-/

namespace Novice

/-- An RGB triple; components are the uint8 cell values 0..255. -/
abbrev RGB := Nat × Nat × Nat

/-- Contents of a root numpy array: the triple stored at root row i, column j. -/
abbrev Grid := Nat → Nat → RGB

/-- The Python exceptions the core raises. -/
inductive PyErr where
  | valueError (msg : String)
  | typeError (msg : String)
  | indexError (msg : String)
deriving DecidableEq

/-- A Python value handed to `int(...)` coercion.  Floats are exact
rationals; `int()` on a float truncates toward zero. -/
inductive PyVal where
  | vint (n : Int)
  | vfloat (q : Rat)
  | vstr (s : String)
  | vnone
deriving DecidableEq

/-- Truncation toward zero, the behaviour of Python `int()` on a float. -/
def ratTrunc (q : Rat) : Int :=
  if q.num < 0 then -(((q.num.natAbs / q.den : Nat) : Int))
  else ((q.num.natAbs / q.den : Nat) : Int)

/-- The value of one decimal digit character. -/
def decDigit? (c : Char) : Option Nat :=
  if 48 ≤ c.toNat ∧ c.toNat ≤ 57 then some (c.toNat - 48) else none

/-- Left-to-right decimal accumulation of a digit string. -/
def digitsVal (acc : Nat) : List Char → Option Nat
  | [] => some acc
  | c :: rest =>
    match decDigit? c with
    | some d => digitsVal (acc * 10 + d) rest
    | none => none

/-- Python `int(str)` on a plain optionally-signed decimal string
(whitespace and underscore forms are not modelled; no claim uses them). -/
def pyStrToInt? (s : String) : Option Int :=
  match s.data with
  | [] => none
  | '-' :: rest =>
    match rest with
    | [] => none
    | _ => (digitsVal 0 rest).map (fun n => -(n : Int))
  | l => (digitsVal 0 l).map (fun n => (n : Int))

/-- Python `int(value)`: ints pass through, floats truncate toward zero,
strings parse or raise ValueError, None raises TypeError. -/
def pyIntOf : PyVal → Except PyErr Int
  | .vint n => .ok n
  | .vfloat q => .ok (ratTrunc q)
  | .vstr s =>
    match pyStrToInt? s with
    | some n => .ok n
    | none => .error (.valueError "invalid literal for int")
  | .vnone => .error (.typeError "int argument must be a string or a number, not NoneType")

/-- The message of the ValueError raised by `Pixel._validate`. -/
def componentMsg : String := "Expected an integer between 0 and 255"

/-- `Pixel._validate`: `value = int(value)`, range-check 0..255, with
`except ValueError` re-raising the range message.  A TypeError from
`int()` (non-numeric, non-string input) is not caught and propagates. -/
def pixelValidate (v : PyVal) : Except PyErr Int :=
  match pyIntOf v with
  | .ok n => if n < 0 ∨ 255 < n then .error (.valueError componentMsg) else .ok n
  | .error (.valueError _) => .error (.valueError componentMsg)
  | .error e => .error e

/-- A `Picture`: a view on a root grid plus the metadata fields set by the common setup of `Picture.__init__` (`_modified`, `_path`, `_format`,
`_inflation`). -/
structure Picture where
  rows : List Nat
  cols : List Nat
  modified : Bool
  path : Option String
  format : Option String
  inflation : Int
deriving DecidableEq

/-- `Picture.width`: number of columns of the view. -/
def Picture.width (p : Picture) : Nat := p.cols.length

/-- `Picture.height`: number of rows of the view. -/
def Picture.height (p : Picture) : Nat := p.rows.length

/-- Reading the view cell at internal (row, col): the root grid at the
mapped root coordinates. -/
def readCell (g : Grid) (p : Picture) (r c : Nat) : RGB :=
  g (p.rows.getD r 0) (p.cols.getD c 0)

/-- In-place store of one root cell of the array. -/
def writeGrid (g : Grid) (rr cc : Nat) (v : RGB) : Grid :=
  fun i j => if i = rr ∧ j = cc then v else g i j

/-- `Picture.from_array` on a fresh h×w×3 uint8 array: the identity view,
`modified = False`, no path, no format, inflation 1 (common setup). -/
def fromDims (h w : Nat) : Picture :=
  { rows := List.range h, cols := List.range w,
    modified := false, path := none, format := none, inflation := 1 }

/-- `Picture._setmodified`: set the dirty flag and drop the path.  The
format field is not touched. -/
def setmodified (p : Picture) : Picture :=
  { p with modified := true, path := none }

/-- A `Pixel`: Cartesian location plus the cached component values.  The
references to the owning picture and its array are threaded explicitly. -/
structure Pixel where
  x : Nat
  y : Nat
  red : Nat
  green : Nat
  blue : Nat
deriving DecidableEq

/-- `Pixel.rgb` (the property getter). -/
def Pixel.rgb (px : Pixel) : RGB := (px.red, px.green, px.blue)

/-- `Picture._makepixel`: read the cell at internal row `height - y - 1`,
column `x`, and build a Pixel caching those components.  The uint8 array
guarantees the components are 0..255, so the validation in `Pixel.__init__` is the identity on them. -/
def makepixel (g : Grid) (p : Picture) (x y : Nat) : Pixel :=
  let rgb := readCell g p (p.height - y - 1) x
  ⟨x, y, rgb.1, rgb.2.1, rgb.2.2⟩

/-- `Pixel._setpixel`: store the cached triple at internal cell
`[height - y - 1, x]` of the array of the owning picture, then
`Picture._setmodified`. -/
def setpixel (g : Grid) (p : Picture) (px : Pixel) : Grid × Picture :=
  (writeGrid g (p.rows.getD (p.height - px.y - 1) 0) (p.cols.getD px.x 0) px.rgb,
   setmodified p)

/-- The `Pixel.red` setter: validate, update the cache, write through. -/
def pixelSetRed (g : Grid) (p : Picture) (px : Pixel) (v : PyVal) :
    Except PyErr (Grid × Picture × Pixel) :=
  match pixelValidate v with
  | .error e => .error e
  | .ok n =>
    let px' := { px with red := n.toNat }
    let gp := setpixel g p px'
    .ok (gp.1, gp.2, px')

/-- The `Pixel.green` setter. -/
def pixelSetGreen (g : Grid) (p : Picture) (px : Pixel) (v : PyVal) :
    Except PyErr (Grid × Picture × Pixel) :=
  match pixelValidate v with
  | .error e => .error e
  | .ok n =>
    let px' := { px with green := n.toNat }
    let gp := setpixel g p px'
    .ok (gp.1, gp.2, px')

/-- The `Pixel.blue` setter. -/
def pixelSetBlue (g : Grid) (p : Picture) (px : Pixel) (v : PyVal) :
    Except PyErr (Grid × Picture × Pixel) :=
  match pixelValidate v with
  | .error e => .error e
  | .ok n =>
    let px' := { px with blue := n.toNat }
    let gp := setpixel g p px'
    .ok (gp.1, gp.2, px')

/-- The `Pixel.rgb` setter on an (r, g, b) tuple (`_parse_color` returns a
3-tuple unchanged): validate all three components, then assign the caches
and write through once.  Tuple unpacking of the validating generator in Python evaluates all
three before assigning, so a failure leaves the caches untouched; the
error of the first failing component is raised. -/
def pixelSetRgb (g : Grid) (p : Picture) (px : Pixel) (v1 v2 v3 : PyVal) :
    Except PyErr (Grid × Picture × Pixel) :=
  match pixelValidate v1 with
  | .error e => .error e
  | .ok r =>
    match pixelValidate v2 with
    | .error e => .error e
    | .ok gc =>
      match pixelValidate v3 with
      | .error e => .error e
      | .ok b =>
        let px' := { px with red := r.toNat, green := gc.toNat, blue := b.toNat }
        let gp := setpixel g p px'
        .ok (gp.1, gp.2, px')

/-- One axis of an index key: an int or a slice (start, stop, step). -/
inductive Key where
  | idx (i : Int)
  | slc (start stop : Option Int) (step : Option Nat)
deriving DecidableEq

/-- A slice as (start, stop, step). -/
abbrev Slc := Option Int × Option Int × Option Nat

/-- The int-to-slice conversion of `_verify_key`: `slice(i, i + 1)`. -/
def toSlc : Key → Slc
  | .idx i => (some i, some (i + 1), none)
  | .slc a b c => (a, b, c)

/-- Is an explicit slice bound negative? -/
def negBound : Option Int → Bool
  | some v => decide (v < 0)
  | none => false

/-- The negative-bound rejection of `_verify_key` for one slice. -/
def negSlc (s : Slc) : Bool := negBound s.1 || negBound s.2.1

/-- Result of `Picture._verify_key`: a checked single-pixel key or a pair
of slices with the y axis already flipped. -/
inductive VKey where
  | pix (x y : Nat)
  | region (kx ky : Slc)
deriving DecidableEq

/-- `Picture._verify_key`.  Two ints: reject negatives, then reject
`x ≥ width` or `y ≥ height`.  Otherwise convert ints to one-element
slices, reject explicit negative starts/stops, and flip the y axis as a
whole: `start' = height - start - 1`, `stop' = height - stop`, returning
`slice(stop', start' + 1, step)`.  The flipped bounds are plain integer
subtractions and may be negative. -/
def verifyKey (w h : Nat) (k1 k2 : Key) : Except PyErr VKey :=
  match k1, k2 with
  | .idx x, .idx y =>
    if x < 0 ∨ y < 0 then .error (.indexError "Negative indices not supported")
    else if (w : Int) ≤ x ∨ (h : Int) ≤ y then .error (.indexError "Out of bounds")
    else .ok (.pix x.toNat y.toNat)
  | a, b =>
    let kx := toSlc a
    let ky := toSlc b
    if negSlc kx || negSlc ky then .error (.indexError "Negative slicing not supported")
    else
      let s := ky.1.getD 0
      let t := ky.2.1.getD (h : Int)
      let start := (h : Int) - s - 1
      let stop := (h : Int) - t
      .ok (.region kx (some stop, some (start + 1), ky.2.2))

/-- Python normalization of one slice bound for a positive step on an axis
of length n: negative bounds wrap from the end, everything clamps to
[0, n]. -/
def normIdx (n : Nat) (i : Int) : Nat :=
  if i < 0 then ((n : Int) + i).toNat else min i.toNat n

/-- Number of indices a normalized slice [s, t) with step k selects. -/
def sliceCount (s t k : Nat) : Nat := (t - s + k - 1) / k

/-- The indices a Python slice selects on an axis of length n (positive
step; a missing step is 1). -/
def sliceIndices (n : Nat) (start stop : Option Int) (step : Option Nat) : List Nat :=
  let k := step.getD 1
  let s := normIdx n (start.getD 0)
  let t := normIdx n (stop.getD (n : Int))
  (List.range (sliceCount s t k)).map (fun j => s + j * k)

/-- numpy basic slicing of one view axis: select the indices of the slice and
map them through the axis, giving a sub-view of the same root array. -/
def applySlice (axis : List Nat) (sl : Slc) : List Nat :=
  (sliceIndices axis.length sl.1 sl.2.1 sl.2.2).map (fun i => axis.getD i 0)

/-- The region branch of `Picture.__getitem__`:
`Picture.from_array(self._image[key[1], key[0]])`.  The slice of a uint8
array is a view and `from_array` stores it without copying, so the result
is a sub-view of the same root grid with fresh metadata. -/
def getitemRegion (p : Picture) (kx ky : Slc) : Picture :=
  { rows := applySlice p.rows ky, cols := applySlice p.cols kx,
    modified := false, path := none, format := none, inflation := 1 }

/-- Result of `Picture.__getitem__`: a Pixel or a region Picture. -/
inductive GetResult where
  | pix (px : Pixel)
  | pic (q : Picture)
deriving DecidableEq

/-- `Picture.__getitem__`: verify the key, then a single pixel gives
`_makepixel` and a slice key gives a region picture. -/
def getitem (g : Grid) (p : Picture) (k1 k2 : Key) : Except PyErr GetResult :=
  match verifyKey p.width p.height k1 k2 with
  | .error e => .error e
  | .ok (.pix x y) => .ok (.pix (makepixel g p x y))
  | .ok (.region kx ky) => .ok (.pic (getitemRegion p kx ky))

/-- uint8 storage of an int: numpy wraps mod 256. -/
def toU8 (n : Int) : Nat := (n % 256).toNat

/-- The `Picture.rgb` setter on picture `q`:
`self._setdim(slice(None), value)` broadcasts the parsed triple to every
cell of the view of `q` (no 0..255 validation; uint8 wraps).  `q.modified` is
not touched. -/
def broadcastRgb (g : Grid) (q : Picture) (c : Int × Int × Int) : Grid :=
  fun i j =>
    if q.rows.contains i && q.cols.contains j then (toU8 c.1, toU8 c.2.1, toU8 c.2.2)
    else g i j

/-- Replace component `dim` of a triple. -/
def setComp (v : RGB) (dim : Fin 3) (x : Nat) : RGB :=
  match dim with
  | 0 => (x, v.2.1, v.2.2)
  | 1 => (v.1, x, v.2.2)
  | 2 => (v.1, v.2.1, x)

/-- `Picture._setdim(dim, value)` with a scalar value:
`self._image[:, :, dim] = value`, writing channel `dim` of every cell of
the view.  The metadata of the picture is not touched. -/
def setdimChannel (g : Grid) (p : Picture) (dim : Fin 3) (v : Int) : Grid :=
  fun i j =>
    if p.rows.contains i && p.cols.contains j then setComp (g i j) dim (toU8 v)
    else g i j

/-- The buffer-level `Picture.red` setter: `self._setdim(0, value)` and
nothing else — no `_setmodified` call, so the picture value is returned
unchanged. -/
def picSetRed (g : Grid) (p : Picture) (v : Int) : Grid × Picture :=
  (setdimChannel g p 0 v, p)

/-- The buffer-level `Picture.green` setter. -/
def picSetGreen (g : Grid) (p : Picture) (v : Int) : Grid × Picture :=
  (setdimChannel g p 1 v, p)

/-- The buffer-level `Picture.blue` setter. -/
def picSetBlue (g : Grid) (p : Picture) (v : Int) : Grid × Picture :=
  (setdimChannel g p 2 v, p)

/-- The buffer-level `Picture.rgb` setter: parse the color (a 3-tuple
passes through) and broadcast it to every cell.  No `_setmodified`. -/
def picSetRgb (g : Grid) (p : Picture) (c : Int × Int × Int) : Grid × Picture :=
  (broadcastRgb g p c, p)

/-- `Picture.__setitem__` with a color value:
`self[key[0], key[1]].rgb = value`, then `self._setmodified()`.  An
int/int key gives a Pixel whose rgb setter validates each component; a
slice key gives a region picture whose rgb setter broadcasts through the
view into the array of this picture.  A raise from the inner assignment
propagates before `_setmodified` runs. -/
def setitemColor (g : Grid) (p : Picture) (k1 k2 : Key) (c : Int × Int × Int) :
    Except PyErr (Grid × Picture) :=
  match verifyKey p.width p.height k1 k2 with
  | .error e => .error e
  | .ok (.pix x y) =>
    match pixelSetRgb g p (makepixel g p x y) (.vint c.1) (.vint c.2.1) (.vint c.2.2) with
    | .error e => .error e
    | .ok (g', p', _) => .ok (g', setmodified p')
  | .ok (.region kx ky) =>
    let q := getitemRegion p kx ky
    .ok (broadcastRgb g q c, setmodified p)

/-- `Picture.__setitem__` with a Picture value:
`self._image[src_key[1], src_key[0]] = value._image`, then
`_setmodified()`.  For a slice key the destination view cells receive the
source view cells elementwise (matching shapes; the source is read before
any write).  For an int/int key the verified key is used unflipped, so
`self._image[y, x]` receives the cell of the source (the 1×1 broadcast case is
modelled; larger sources error in numpy). -/
def setitemPicture (g : Grid) (p : Picture) (k1 k2 : Key) (gs : Grid) (src : Picture) :
    Except PyErr (Grid × Picture) :=
  match verifyKey p.width p.height k1 k2 with
  | .error e => .error e
  | .ok (.pix x y) =>
    .ok (writeGrid g (p.rows.getD y 0) (p.cols.getD x 0) (readCell gs src 0 0),
         setmodified p)
  | .ok (.region kx ky) =>
    let q := getitemRegion p kx ky
    let g' : Grid := fun i j =>
      match q.rows.findIdx? (· = i), q.cols.findIdx? (· = j) with
      | some r, some c => readCell gs src r c
      | _, _ => g i j
    .ok (g', setmodified p)

/-- `Picture.save(path)`: the encode call (the external codec) runs first;
if it raises, nothing else happens.  On success `modified = False`,
`path = os.path.abspath(path)` and `format = imghdr.what(path)` (the
detection by the codec), passed in as oracle results of the collaborators. -/
def save (p : Picture) (encodeRes : Except String Unit) (absPath : String)
    (detected : Option String) : Except String Picture :=
  match encodeRes with
  | .error e => .error e
  | .ok _ =>
    .ok { p with modified := false, path := some absPath, format := detected }

/-- The `Picture.size` setter on a (width, height) pair: if either
dimension differs from the current one, replace the array with the
output of the resampler collaborator (a fresh root grid of the new shape,
passed in as-an oracle) and `_setmodified()`; otherwise do nothing.
`_setmodified` leaves the format field as it was. -/
def setSize (g : Grid) (p : Picture) (value : Int × Int) (resized : Grid) :
    Grid × Picture :=
  if value.1 ≠ (p.width : Int) ∨ value.2 ≠ (p.height : Int) then
    (resized,
     { rows := List.range value.2.toNat, cols := List.range value.1.toNat,
       modified := true, path := none, format := p.format, inflation := p.inflation })
  else (g, p)

/-- The message of the ValueError raised by the inflation setter. -/
def inflationMsg : String := "Expected inflation factor to be an integer greater than zero"

/-- The `Picture.inflation` setter: `value = int(value)`, raise ValueError
if `value < 0`, else assign; `except ValueError` re-raises with the
message.  The check is `< 0`, so 0 is accepted.  A TypeError from `int()`
propagates uncaught. -/
def setInflation (p : Picture) (v : PyVal) : Except PyErr Picture :=
  match pyIntOf v with
  | .error (.valueError _) => .error (.valueError inflationMsg)
  | .error e => .error e
  | .ok n =>
    if n < 0 then .error (.valueError inflationMsg)
    else .ok { p with inflation := n }

/-- The logical Cartesian y coordinate of each row of a view on a root
array of height h: row r of the root is logical `y = h - 1 - r`. -/
def logicalYs (h : Nat) (q : Picture) : List Nat :=
  q.rows.map (fun r => h - 1 - r)

/-- Modelled from the spec: the logical y values that the sentence of the
specification describes for a y range with start s, stop t and step k — the
values `s, s + k, s + 2k, ...` below t. -/
def specSelectedYs (s t k : Nat) : List Nat :=
  (List.range (sliceCount s t k)).map (fun j => s + j * k)

/-- An all-black root grid, for concrete instances. -/
def gZero : Grid := fun _ _ => (0, 0, 0)

/-- A root grid whose cell in root row i carries i in its red channel, so
rows are distinguishable. -/
def gRowMark : Grid := fun i _ => (i, 0, 0)

/-- A 2×2 picture carrying path and format metadata, for concrete
instances exercising the dirty-tracking fields. -/
def pMeta : Picture :=
  { rows := [0, 1], cols := [0, 1], modified := false, path := some "a.png",
    format := some "png", inflation := 1 }

/-- The region `pic[0:1, 0:1]` of a 2×2 picture: the bottom-left cell,
which is internal row 1 of the root array. -/
def qCorner : Picture :=
  { rows := [1], cols := [0], modified := false, path := none, format := none,
    inflation := 1 }

/-- The region `pic[:, ::2]` of a 4×1 picture as the code computes it:
internal rows 0 and 2. -/
def qStride : Picture :=
  { rows := [0, 2], cols := [0], modified := false, path := none, format := none,
    inflation := 1 }

/-- The region `pic[:, 5]` of a 4×1 picture as the code computes it: the
flipped slice (-2, -1) wraps from the end and selects internal row 2. -/
def qWrap : Picture :=
  { rows := [2], cols := [0], modified := false, path := none, format := none,
    inflation := 1 }

/- ------------------------------------------------------------------ -/
/- Helper lemmas -/

theorem setmodified_fields (p : Picture) :
    (setmodified p).modified = true ∧ (setmodified p).path = none :=
  ⟨rfl, rfl⟩

theorem normIdx_le (n : Nat) (i : Int) : normIdx n i ≤ n := by
  unfold normIdx
  split
  · omega
  · exact Nat.min_le_right _ _

theorem sliceStep_bound (s t k j : Nat) (hj : j < sliceCount s t k) :
    j * k < t - s := by
  rcases Nat.eq_zero_or_pos k with hk | hk
  · subst hk; simp [sliceCount] at hj
  have h1 : j + 1 ≤ (t - s + k - 1) / k := by unfold sliceCount at hj; omega
  have h2 : (j + 1) * k ≤ ((t - s + k - 1) / k) * k := Nat.mul_le_mul_right k h1
  have h3 : ((t - s + k - 1) / k) * k ≤ t - s + k - 1 := Nat.div_mul_le_self _ _
  have h4 : (j + 1) * k = j * k + k := by ring
  omega

theorem sliceIndices_mem_lt (n : Nat) (a b : Option Int) (st : Option Nat) :
    ∀ i ∈ sliceIndices n a b st, i < n := by
  intro i hi
  unfold sliceIndices at hi
  rw [List.mem_map] at hi
  obtain ⟨j, hj, rfl⟩ := hi
  rw [List.mem_range] at hj
  have hb := sliceStep_bound _ _ _ _ hj
  have ht := normIdx_le n (b.getD (n : Int))
  omega

theorem getD_range_eq (n i : Nat) (hi : i < n) : (List.range n).getD i 0 = i := by
  rw [List.getD_eq_getElem?_getD, List.getElem?_range hi]
  rfl

theorem applySlice_range_lt (n : Nat) (sl : Slc) :
    ∀ a ∈ applySlice (List.range n) sl, a < n := by
  intro a ha
  unfold applySlice at ha
  rw [List.mem_map] at ha
  obtain ⟨i, hi, rfl⟩ := ha
  rw [List.length_range] at hi
  have hi' : i < n := sliceIndices_mem_lt _ _ _ _ i hi
  rw [getD_range_eq n i hi']
  exact hi'

theorem getD_mem_of_lt (l : List Nat) (i : Nat) (hi : i < l.length) :
    l.getD i 0 ∈ l := by
  rw [List.getD_eq_getElem?_getD, List.getElem?_eq_getElem hi]
  exact List.getElem_mem hi

theorem pixelValidate_vint_in_range (n : Nat) (hn : n ≤ 255) :
    pixelValidate (.vint (n : Int)) = .ok (n : Int) := by
  have hc : ¬ (((n : Int) < 0) ∨ (255 : Int) < (n : Int)) := by omega
  simp only [pixelValidate, pyIntOf, if_neg hc]

theorem pixelSetRgb_vint_run (g : Grid) (p : Picture) (px : Pixel) (r gc b : Nat)
    (hr : r ≤ 255) (hg : gc ≤ 255) (hb : b ≤ 255) :
    pixelSetRgb g p px (.vint r) (.vint gc) (.vint b) =
      .ok (writeGrid g (p.rows.getD (p.height - px.y - 1) 0) (p.cols.getD px.x 0) (r, gc, b),
           setmodified p, { px with red := r, green := gc, blue := b }) := by
  simp [pixelSetRgb, pixelValidate_vint_in_range r hr, pixelValidate_vint_in_range gc hg,
        pixelValidate_vint_in_range b hb, setpixel, Pixel.rgb]

/- ------------------------------------------------------------------ -/
/- Claim theorems -/

/-- C6: save is all-or-nothing.  When the encode collaborator succeeds the
buffer afterwards has `modified = false`, `path` the absolute path and
`format` the detection by the codec; when the encode fails the error
propagates and no updated buffer is produced, so the buffer state held
by the caller is exactly what it was before the call. -/
theorem C6_save_all_or_nothing (p : Picture) (enc : Except String Unit)
    (absPath : String) (fmt : Option String) :
    (enc = .ok () → save p enc absPath fmt =
       .ok { p with modified := false, path := some absPath, format := fmt }) ∧
    (∀ e, enc = .error e → save p enc absPath fmt = .error e) := by
  constructor
  · intro h
    subst h
    rfl
  · intro e h
    subst h
    rfl

/-- Witness for C6 at a concrete picture, path and both encode outcomes. -/
theorem C6_save_all_or_nothing_witness :
    save (fromDims 2 2) (.ok ()) "a.png" (some "png") =
      .ok { fromDims 2 2 with modified := false, path := some "a.png", format := some "png" } ∧
    save (fromDims 2 2) (.error "encode failed") "a.png" (some "png") = .error "encode failed" :=
  ⟨(C6_save_all_or_nothing (fromDims 2 2) (.ok ()) "a.png" (some "png")).1 rfl,
   (C6_save_all_or_nothing (fromDims 2 2) (.error "encode failed") "a.png" (some "png")).2
     "encode failed" rfl⟩

/-- C10: the claim says the inflation setter rejects zero, and the error
message in the code itself demands "an integer greater than zero", but the check
is `value < 0`: the value 0 is accepted and stored.  Construction does
set the factor to 1. -/
theorem C10_inflation_zero_accepted :
    setInflation (fromDims 2 2) (PyVal.vint 0) = .ok { fromDims 2 2 with inflation := 0 } ∧
    (fromDims 2 2).inflation = 1 :=
  ⟨rfl, rfl⟩

/-- C7 counterexample: resizing to a different size does not clear the
format field — `_setmodified` only clears the path — contradicting the
claim that both sourcePath and sourceFormat are cleared. -/
theorem C7_cex_format_survives_resize :
    ((setSize gZero pMeta (3, 3) gZero).2).format = some "png" ∧
    some "png" ≠ (none : Option String) := by
  constructor
  · rfl
  · simp

/-- C7 (amended): the size setter is a no-op when the target dimensions
equal the current ones; for a target differing in at least one dimension
it installs the resampled grid, sets `modified = true`, clears the path,
and leaves the format unchanged (the clause "clears sourceFormat" of the
claim does
not hold). -/
theorem C7_size_setter (g : Grid) (p : Picture) (v : Int × Int) (resized : Grid) :
    (v.1 = (p.width : Int) ∧ v.2 = (p.height : Int) → setSize g p v resized = (g, p)) ∧
    (v.1 ≠ (p.width : Int) ∨ v.2 ≠ (p.height : Int) →
      setSize g p v resized =
        (resized,
         { rows := List.range v.2.toNat, cols := List.range v.1.toNat,
           modified := true, path := none, format := p.format, inflation := p.inflation })) := by
  constructor
  · rintro ⟨h1, h2⟩
    unfold setSize
    rw [if_neg]
    simp [h1, h2]
  · intro h
    unfold setSize
    rw [if_pos h]

/-- Witness for C7 at a 2×2 picture: the no-op target (2,2) and the
resizing target (3,2). -/
theorem C7_size_setter_witness :
    setSize gZero (fromDims 2 2) (2, 2) gZero = (gZero, fromDims 2 2) ∧
    setSize gZero (fromDims 2 2) (3, 2) gZero =
      (gZero,
       { rows := List.range 2, cols := List.range 3, modified := true,
         path := none, format := none, inflation := 1 }) :=
  ⟨(C7_size_setter gZero (fromDims 2 2) (2, 2) gZero).1 (by constructor <;> decide),
   (C7_size_setter gZero (fromDims 2 2) (3, 2) gZero).2 (by left; decide)⟩

/-- C2 counterexample: buffer-level channel assignment (`pic.red = v`)
mutates cells through `_setdim` but never calls `_setmodified`, so the
buffer does not end with `modified = true` and an absent path. -/
theorem C2_cex_channel_write_not_marked :
    ¬ (((picSetRed gZero pMeta 7).2).modified = true ∧
       ((picSetRed gZero pMeta 7).2).path = none) := by
  intro h
  exact absurd h.1 (by simp [picSetRed, pMeta])

/-- C2 (amended): every PixelView component or rgb write and every
single-pixel or region assignment through `__setitem__` (color value or
picture value) leaves the buffer with `modified = true` and the path
absent; buffer-level channel and rgb assignment mutate cells but return
the metadata of the buffer unchanged. -/
theorem C2_dirty_tracking (g : Grid) (p : Picture) (px : Pixel) (v : PyVal)
    (v1 v2 v3 : PyVal) (c : Int × Int × Int) (k1 k2 : Key) (gs : Grid)
    (src : Picture) (vi : Int) :
    (∀ g' p' px', pixelSetRed g p px v = .ok (g', p', px') →
       p'.modified = true ∧ p'.path = none) ∧
    (∀ g' p' px', pixelSetGreen g p px v = .ok (g', p', px') →
       p'.modified = true ∧ p'.path = none) ∧
    (∀ g' p' px', pixelSetBlue g p px v = .ok (g', p', px') →
       p'.modified = true ∧ p'.path = none) ∧
    (∀ g' p' px', pixelSetRgb g p px v1 v2 v3 = .ok (g', p', px') →
       p'.modified = true ∧ p'.path = none) ∧
    (∀ g' p', setitemColor g p k1 k2 c = .ok (g', p') →
       p'.modified = true ∧ p'.path = none) ∧
    (∀ g' p', setitemPicture g p k1 k2 gs src = .ok (g', p') →
       p'.modified = true ∧ p'.path = none) ∧
    ((picSetRed g p vi).2 = p ∧ (picSetGreen g p vi).2 = p ∧
     (picSetBlue g p vi).2 = p ∧ (picSetRgb g p c).2 = p) := by
  refine ⟨?_, ?_, ?_, ?_, ?_, ?_, rfl, rfl, rfl, rfl⟩
  · intro g' p' px' hok
    unfold pixelSetRed at hok
    split at hok
    · exact absurd hok (by simp)
    · simp [setpixel] at hok
      obtain ⟨-, h2, -⟩ := hok
      rw [← h2]
      exact setmodified_fields p
  · intro g' p' px' hok
    unfold pixelSetGreen at hok
    split at hok
    · exact absurd hok (by simp)
    · simp [setpixel] at hok
      obtain ⟨-, h2, -⟩ := hok
      rw [← h2]
      exact setmodified_fields p
  · intro g' p' px' hok
    unfold pixelSetBlue at hok
    split at hok
    · exact absurd hok (by simp)
    · simp [setpixel] at hok
      obtain ⟨-, h2, -⟩ := hok
      rw [← h2]
      exact setmodified_fields p
  · intro g' p' px' hok
    unfold pixelSetRgb at hok
    split at hok
    · exact absurd hok (by simp)
    · split at hok
      · exact absurd hok (by simp)
      · split at hok
        · exact absurd hok (by simp)
        · simp [setpixel] at hok
          obtain ⟨-, h2, -⟩ := hok
          rw [← h2]
          exact setmodified_fields p
  · intro g' p' hok
    unfold setitemColor at hok
    split at hok
    · exact absurd hok (by simp)
    · split at hok
      · exact absurd hok (by simp)
      · simp at hok
        obtain ⟨-, h2⟩ := hok
        rw [← h2]
        exact setmodified_fields _
    · simp at hok
      obtain ⟨-, h2⟩ := hok
      rw [← h2]
      exact setmodified_fields p
  · intro g' p' hok
    unfold setitemPicture at hok
    split at hok
    · exact absurd hok (by simp)
    · simp at hok
      obtain ⟨-, h2⟩ := hok
      rw [← h2]
      exact setmodified_fields p
    · simp at hok
      obtain ⟨-, h2⟩ := hok
      rw [← h2]
      exact setmodified_fields p

/-- Witness for C2: a pixel rgb write, a region color assignment, an
int/int color assignment, a picture-value assignment, and a buffer-level
channel write, all at concrete inputs. -/
theorem C2_dirty_tracking_witness :
    ((setmodified (fromDims 2 2)).modified = true ∧ (setmodified (fromDims 2 2)).path = none) ∧
    ((setmodified (setmodified (fromDims 2 2))).modified = true ∧
     (setmodified (setmodified (fromDims 2 2))).path = none) ∧
    (picSetRed gZero (fromDims 2 2) 7).2 = fromDims 2 2 := by
  have T := C2_dirty_tracking gZero (fromDims 2 2) ⟨0, 0, 0, 0, 0⟩ (.vint 5)
    (.vint 1) (.vint 2) (.vint 3) (1, 2, 3) (.slc none none none) (.slc none none none)
    gZero (fromDims 2 2) 7
  have T2 := C2_dirty_tracking gZero (fromDims 2 2) ⟨0, 0, 0, 0, 0⟩ (.vint 5)
    (.vint 1) (.vint 2) (.vint 3) (1, 2, 3) (.idx 0) (.idx 0)
    gZero (fromDims 2 2) 7
  refine ⟨T.1 _ _ _ rfl, T2.2.2.2.2.1 _ _ rfl, T.2.2.2.2.2.2.1⟩

/-- C8 counterexample: a non-numeric value with no integer coercion (None)
makes `int(value)` raise TypeError, which the `except ValueError` in
`Pixel._validate` does not catch — the write fails with TypeError, not
with the InvalidComponentValue error the claim demands. -/
theorem C8_cex_none_raises_type_error :
    pixelValidate PyVal.vnone =
      .error (.typeError "int argument must be a string or a number, not NoneType") ∧
    ∀ m, pixelValidate PyVal.vnone ≠ .error (.valueError m) := by
  refine ⟨rfl, ?_⟩
  intro m h
  simp [pixelValidate, pyIntOf] at h

/-- C8 (amended): setting a PixelView component coerces numeric values
(ints and floats) to an integer and raises the InvalidComponentValue
error when the coerced integer is outside 0–255; a non-numeric string
also raises InvalidComponentValue, but a non-numeric value without
integer coercion (None) raises TypeError instead.  A rejected write
returns the error with no write-through, leaving the grid, picture and
pixel held by the caller untouched. -/
theorem C8_component_validation (g : Grid) (p : Picture) (px : Pixel) :
    (∀ n : Int, pixelValidate (.vint n) =
       (if n < 0 ∨ 255 < n then .error (.valueError componentMsg) else .ok n)) ∧
    (∀ q : Rat, pixelValidate (.vfloat q) =
       (if ratTrunc q < 0 ∨ 255 < ratTrunc q then .error (.valueError componentMsg)
        else .ok (ratTrunc q))) ∧
    (∀ s : String, pyStrToInt? s = none →
       pixelValidate (.vstr s) = .error (.valueError componentMsg)) ∧
    (pixelValidate .vnone =
       .error (.typeError "int argument must be a string or a number, not NoneType")) ∧
    (∀ v e, pixelValidate v = .error e → pixelSetRed g p px v = .error e) := by
  refine ⟨fun n => rfl, fun q => rfl, ?_, rfl, ?_⟩
  · intro s hs
    simp [pixelValidate, pyIntOf, hs]
  · intro v e h
    simp [pixelSetRed, h]

/-- Witness for C8 at concrete inputs: the int 300 (out of range), the
float 11/10 (coerces to 1), the string "abc" (no parse), None, and a
rejected red write. -/
theorem C8_component_validation_witness :
    pixelValidate (.vint 300) = .error (.valueError componentMsg) ∧
    pixelValidate (.vfloat (⟨11, 10, by decide, by decide⟩ : Rat)) = .ok 1 ∧
    pixelValidate (.vstr "abc") = .error (.valueError componentMsg) ∧
    pixelValidate .vnone =
      .error (.typeError "int argument must be a string or a number, not NoneType") ∧
    pixelSetRed gZero (fromDims 2 2) ⟨0, 0, 0, 0, 0⟩ (.vint 300) =
      .error (.valueError componentMsg) := by
  have T := C8_component_validation gZero (fromDims 2 2) ⟨0, 0, 0, 0, 0⟩
  refine ⟨?_, ?_, T.2.2.1 "abc" (by decide), T.2.2.2.1, T.2.2.2.2 (.vint 300) _ ?_⟩
  · rw [T.1 300]
    rfl
  · rw [T.2.1 (⟨11, 10, by decide, by decide⟩ : Rat)]
    rfl
  · rw [T.1 300]
    rfl

theorem pixelValidate_vint_eq (n : Int) :
    pixelValidate (.vint n) =
      (if n < 0 ∨ 255 < n then .error (.valueError componentMsg) else .ok n) := rfl

theorem verifyKey_idx_eq (w h : Nat) (x y : Int) :
    verifyKey w h (.idx x) (.idx y) =
      (if x < 0 ∨ y < 0 then .error (.indexError "Negative indices not supported")
       else if (w : Int) ≤ x ∨ (h : Int) ≤ y then .error (.indexError "Out of bounds")
       else .ok (.pix x.toNat y.toNat)) := rfl

theorem pixelValidate_vint_cases (n : Int) :
    pixelValidate (.vint n) = .ok n ∨
    pixelValidate (.vint n) = .error (.valueError componentMsg) := by
  rw [pixelValidate_vint_eq]
  split_ifs <;> simp

theorem pixelSetRgb_vint_no_index (g : Grid) (p : Picture) (px : Pixel)
    (a b c : Int) (m : String) :
    pixelSetRgb g p px (.vint a) (.vint b) (.vint c) ≠ .error (.indexError m) := by
  unfold pixelSetRgb
  rcases pixelValidate_vint_cases a with h1 | h1 <;> rw [h1]
  · rcases pixelValidate_vint_cases b with h2 | h2 <;> rw [h2]
    · rcases pixelValidate_vint_cases c with h3 | h3 <;> rw [h3] <;> simp
    · simp
  · simp

/-- C5: for an int/int key, single-pixel get and set raise the index error
exactly when `x < 0`, `y < 0`, `x ≥ width` or `y ≥ height`; negative
indices are rejected rather than wrapped, and an in-bounds get returns
the pixel without raising. -/
theorem C5_single_pixel_bounds (g : Grid) (p : Picture) (c : Int × Int × Int) (x y : Int) :
    ((∃ m, getitem g p (.idx x) (.idx y) = .error (.indexError m)) ↔
      (x < 0 ∨ y < 0 ∨ (p.width : Int) ≤ x ∨ (p.height : Int) ≤ y)) ∧
    ((∃ m, setitemColor g p (.idx x) (.idx y) c = .error (.indexError m)) ↔
      (x < 0 ∨ y < 0 ∨ (p.width : Int) ≤ x ∨ (p.height : Int) ≤ y)) ∧
    (¬ (x < 0 ∨ y < 0 ∨ (p.width : Int) ≤ x ∨ (p.height : Int) ≤ y) →
      getitem g p (.idx x) (.idx y) = .ok (.pix (makepixel g p x.toNat y.toNat))) := by
  by_cases h1 : x < 0 ∨ y < 0
  · have hv : verifyKey p.width p.height (.idx x) (.idx y) =
        .error (.indexError "Negative indices not supported") := by
      rw [verifyKey_idx_eq, if_pos h1]
    refine ⟨?_, ?_, ?_⟩
    · simp only [getitem, hv]
      simp
      tauto
    · simp only [setitemColor, hv]
      simp
      tauto
    · intro h
      exact absurd (by tauto) h
  · by_cases h2 : (p.width : Int) ≤ x ∨ (p.height : Int) ≤ y
    · have hv : verifyKey p.width p.height (.idx x) (.idx y) =
          .error (.indexError "Out of bounds") := by
        rw [verifyKey_idx_eq, if_neg h1, if_pos h2]
      refine ⟨?_, ?_, ?_⟩
      · simp only [getitem, hv]
        simp
        tauto
      · simp only [setitemColor, hv]
        simp
        tauto
      · intro h
        exact absurd (by tauto) h
    · have hv : verifyKey p.width p.height (.idx x) (.idx y) = .ok (.pix x.toNat y.toNat) := by
        rw [verifyKey_idx_eq, if_neg h1, if_neg h2]
      have hset : ∀ m : String, setitemColor g p (.idx x) (.idx y) c ≠ .error (.indexError m) := by
        intro m hm
        unfold setitemColor at hm
        rw [hv] at hm
        simp only [] at hm
        rcases hps : pixelSetRgb g p (makepixel g p x.toNat y.toNat)
            (.vint c.1) (.vint c.2.1) (.vint c.2.2) with e | trip
        · rw [hps] at hm
          simp at hm
          exact pixelSetRgb_vint_no_index g p _ c.1 c.2.1 c.2.2 m (by rw [hps, hm])
        · rw [hps] at hm
          rcases trip with ⟨g', p', px'⟩
          simp at hm
      refine ⟨?_, ?_, ?_⟩
      · simp only [getitem, hv]
        constructor
        · rintro ⟨m, hm⟩
          simp at hm
        · intro hcon
          exact absurd hcon (by tauto)
      · constructor
        · rintro ⟨m, hm⟩
          exact absurd hm (hset m)
        · intro hcon
          exact absurd hcon (by tauto)
      · intro _
        simp [getitem, hv]

/-- Witness for C5 on a 2×2 picture: the in-bounds access (1, 1) does not
raise and the negative access (-1, 0) does. -/
theorem C5_single_pixel_bounds_witness :
    ((∃ m, getitem gZero (fromDims 2 2) (.idx (-1)) (.idx 0) = .error (.indexError m)) ↔
      ((-1 : Int) < 0 ∨ (0 : Int) < 0 ∨ ((fromDims 2 2).width : Int) ≤ -1 ∨
        ((fromDims 2 2).height : Int) ≤ 0)) ∧
    getitem gZero (fromDims 2 2) (.idx 1) (.idx 1) =
      .ok (.pix (makepixel gZero (fromDims 2 2) (1 : Int).toNat (1 : Int).toNat)) :=
  ⟨(C5_single_pixel_bounds gZero (fromDims 2 2) (0, 0, 0) (-1) 0).1,
   (C5_single_pixel_bounds gZero (fromDims 2 2) (0, 0, 0) 1 1).2.2 (by decide)⟩

/-- C3: for an in-bounds Cartesian coordinate (x, y), `get(x, y)` reads the
triple stored at internal cell `[height - y - 1, x]`, a write through the
returned PixelView stores into exactly that cell of the backing array,
and a fresh `get(x, y).rgb` afterwards returns the written triple. -/
theorem C3_pixel_roundtrip (g : Grid) (p : Picture) (x y r gc b : Nat)
    (hx : x < p.width) (hy : y < p.height) (hr : r ≤ 255) (hg : gc ≤ 255) (hb : b ≤ 255) :
    (makepixel g p x y).rgb = readCell g p (p.height - y - 1) x ∧
    pixelSetRgb g p (makepixel g p x y) (.vint r) (.vint gc) (.vint b) =
      .ok (writeGrid g (p.rows.getD (p.height - y - 1) 0) (p.cols.getD x 0) (r, gc, b),
           setmodified p, { makepixel g p x y with red := r, green := gc, blue := b }) ∧
    (makepixel (writeGrid g (p.rows.getD (p.height - y - 1) 0) (p.cols.getD x 0) (r, gc, b))
        p x y).rgb = (r, gc, b) := by
  refine ⟨rfl, ?_, ?_⟩
  · rw [pixelSetRgb_vint_run g p _ r gc b hr hg hb]
    rfl
  · simp [makepixel, readCell, writeGrid, Pixel.rgb]

/-- Witness for C3 at the 2×2 black picture, coordinate (0, 0) and triple
(1, 2, 3). -/
theorem C3_pixel_roundtrip_witness :
    (makepixel gZero (fromDims 2 2) 0 0).rgb =
      readCell gZero (fromDims 2 2) ((fromDims 2 2).height - 0 - 1) 0 ∧
    pixelSetRgb gZero (fromDims 2 2) (makepixel gZero (fromDims 2 2) 0 0)
        (.vint 1) (.vint 2) (.vint 3) =
      .ok (writeGrid gZero ((fromDims 2 2).rows.getD ((fromDims 2 2).height - 0 - 1) 0)
             ((fromDims 2 2).cols.getD 0 0) (1, 2, 3),
           setmodified (fromDims 2 2),
           { makepixel gZero (fromDims 2 2) 0 0 with red := 1, green := 2, blue := 3 }) ∧
    (makepixel (writeGrid gZero ((fromDims 2 2).rows.getD ((fromDims 2 2).height - 0 - 1) 0)
        ((fromDims 2 2).cols.getD 0 0) (1, 2, 3)) (fromDims 2 2) 0 0).rgb = (1, 2, 3) :=
  C3_pixel_roundtrip gZero (fromDims 2 2) 0 0 1 2 3 (by decide) (by decide)
    (by decide) (by decide) (by decide)

theorem sliceIndices_eq (n : Nat) (a b : Option Int) (st : Option Nat) :
    sliceIndices n a b st =
      (List.range (sliceCount (normIdx n (a.getD 0)) (normIdx n (b.getD (n : Int)))
          (st.getD 1))).map
        (fun j => normIdx n (a.getD 0) + j * (st.getD 1)) := rfl

theorem verifyKey_slc_slc (w h : Nat) (a b : Option Int) (c : Option Nat)
    (d e : Option Int) (f : Option Nat) :
    verifyKey w h (.slc a b c) (.slc d e f) =
      (if (negSlc (a, b, c) || negSlc (d, e, f)) = true
       then .error (.indexError "Negative slicing not supported")
       else .ok (.region (a, b, c)
         (some ((h : Int) - e.getD (h : Int)),
          some (((h : Int) - d.getD 0 - 1) + 1), f))) := rfl

theorem verifyKey_idx_slc (w h : Nat) (i : Int) (d e : Option Int) (f : Option Nat) :
    verifyKey w h (.idx i) (.slc d e f) =
      (if (negSlc (some i, some (i + 1), none) || negSlc (d, e, f)) = true
       then .error (.indexError "Negative slicing not supported")
       else .ok (.region (some i, some (i + 1), none)
         (some ((h : Int) - e.getD (h : Int)),
          some (((h : Int) - d.getD 0 - 1) + 1), f))) := rfl

theorem verifyKey_slc_idx (w h : Nat) (a b : Option Int) (c : Option Nat) (i : Int) :
    verifyKey w h (.slc a b c) (.idx i) =
      (if (negSlc (a, b, c) || negSlc (some i, some (i + 1), none)) = true
       then .error (.indexError "Negative slicing not supported")
       else .ok (.region (a, b, c)
         (some ((h : Int) - (i + 1)), some (((h : Int) - i - 1) + 1), none))) := rfl

theorem applySlice_range_eq (n : Nat) (a b : Option Int) (st : Option Nat) :
    applySlice (List.range n) (a, b, st) = sliceIndices n a b st := by
  unfold applySlice
  rw [List.length_range]
  have hmem : ∀ i ∈ sliceIndices n a b st, (List.range n).getD i 0 = i := fun i hi =>
    getD_range_eq n i (sliceIndices_mem_lt n a b st i hi)
  calc (sliceIndices n a b st).map (fun i => (List.range n).getD i 0)
      = (sliceIndices n a b st).map id := List.map_congr_left hmem
    _ = sliceIndices n a b st := List.map_id _

theorem normIdx_coe_sub (h t : Nat) (ht : t ≤ h) : normIdx h ((h : Int) - t) = h - t := by
  unfold normIdx
  rw [if_neg (by omega)]
  have e : ((h : Int) - t).toNat = h - t := by omega
  rw [e]
  exact Nat.min_eq_left (Nat.sub_le _ _)

theorem sliceIndices_flip_eq (h s t k : Nat) (hst : s ≤ t) (hth : t ≤ h) :
    sliceIndices h (some ((h : Int) - t)) (some ((h : Int) - s)) (some k) =
      (List.range (sliceCount s t k)).map (fun j => (h - t) + j * k) := by
  rw [sliceIndices_eq]
  simp only [Option.getD_some]
  rw [normIdx_coe_sub h t hth, normIdx_coe_sub h s (le_trans hst hth)]
  have e3 : sliceCount (h - t) (h - s) k = sliceCount s t k := by
    unfold sliceCount
    congr 1
    omega
  rw [e3]

theorem sliceIndices_int_ge (w : Nat) (i : Int) (hi : (w : Int) ≤ i) :
    sliceIndices w (some i) (some (i + 1)) none = [] := by
  rw [sliceIndices_eq]
  have e1 : normIdx w i = w := by
    unfold normIdx
    rw [if_neg (by omega)]
    exact Nat.min_eq_right (by omega)
  have e2 : normIdx w (i + 1) = w := by
    unfold normIdx
    rw [if_neg (by omega)]
    exact Nat.min_eq_right (by omega)
  simp only [Option.getD_some]
  rw [e1, e2]
  have e3 : sliceCount w w ((none : Option Nat).getD 1) = 0 := by
    unfold sliceCount
    norm_num
  rw [e3]
  rfl

theorem sliceIndices_y_idx_h (h : Nat) :
    sliceIndices h (some ((h : Int) - ((h : Int) + 1)))
      (some (((h : Int) - (h : Int) - 1) + 1)) none = [] := by
  rw [sliceIndices_eq]
  have e2 : normIdx h (((h : Int) - (h : Int) - 1) + 1) = 0 := by
    unfold normIdx
    split
    · omega
    · have e : (((h : Int) - (h : Int) - 1) + 1).toNat = 0 := by omega
      rw [e]
      exact Nat.zero_min h
  simp only [Option.getD_some]
  rw [e2]
  have e3 : ∀ a : Nat, sliceCount a 0 ((none : Option Nat).getD 1) = 0 := by
    intro a
    unfold sliceCount
    simp
  rw [e3]
  rfl

theorem sliceIndices_wrap (h : Nat) (i : Int) (h1 : (h : Int) < i)
    (h2 : i ≤ 2 * (h : Int) - 1) :
    sliceIndices h (some ((h : Int) - (i + 1))) (some (((h : Int) - i - 1) + 1)) none =
      [2 * h - 1 - i.toNat] := by
  rw [sliceIndices_eq]
  have e1 : normIdx h ((h : Int) - (i + 1)) = 2 * h - 1 - i.toNat := by
    unfold normIdx
    rw [if_pos (by omega)]
    omega
  have e2 : normIdx h (((h : Int) - i - 1) + 1) = 2 * h - i.toNat := by
    unfold normIdx
    rw [if_pos (by omega)]
    omega
  simp only [Option.getD_some]
  rw [e1, e2]
  have e3 : sliceCount (2 * h - 1 - i.toNat) (2 * h - i.toNat)
      ((none : Option Nat).getD 1) = 1 := by
    unfold sliceCount
    simp only [Option.getD_none]
    rw [Nat.add_sub_cancel, Nat.div_one]
    omega
  rw [e3, show List.range 1 = [0] from rfl]
  simp

/-- C4 counterexample: for the key `[:, ::2]` on a 4×1 buffer the claim
says the region holds the cells of logical y in 0, 2, ... (< 4), i.e.
the set 0 and 2; the code flips the composed range without adjusting the
step anchor and selects internal rows 0 and 2, which are logical y 3 and
1.  Logical y 3 is in the region but not in the claimed set. -/
theorem C4_cex_step_anchor :
    getitem gZero (fromDims 4 1) (.slc none none none) (.slc none none (some 2)) =
      .ok (.pic qStride) ∧
    3 ∈ logicalYs 4 qStride ∧ 3 ∉ specSelectedYs 0 4 2 :=
  ⟨rfl, by decide, by decide⟩

/-- C4 (amended): for a y range with start s, stop t (s ≤ t ≤ height) and
step k ≥ 1, the y flip is applied once to the composed range, and the
region holds exactly the cells whose logical y is `t - 1, t - 1 - k, ...`
(≥ s) — the stride is anchored at the top of the range, not at s.  For
k = 1 this is exactly the set `s ≤ y < t` the claim describes, but for
k > 1 it generally differs from `s, s + k, ... (< t)`. -/
theorem C4_region_y_selection (g : Grid) (p : Picture) (h w s t k : Nat)
    (hrows : p.rows = List.range h) (hcols : p.cols = List.range w)
    (hk : 1 ≤ k) (hst : s ≤ t) (hth : t ≤ h) :
    ∃ q, getitem g p (.slc none none none) (.slc (some (s : Int)) (some (t : Int)) (some k)) =
        .ok (.pic q) ∧
      logicalYs h q = (List.range (sliceCount s t k)).map (fun j => t - 1 - j * k) ∧
      (k = 1 → ∀ yy, yy ∈ logicalYs h q ↔ (s ≤ yy ∧ yy < t)) := by
  have hh : p.height = h := by rw [Picture.height, hrows, List.length_range]
  have hny : negSlc (some (s : Int), some (t : Int), some k) = false := by
    simp [negSlc, negBound]
  have hvk : verifyKey p.width p.height (.slc none none none)
      (.slc (some (s : Int)) (some (t : Int)) (some k)) =
      .ok (.region (none, none, none)
        (some ((h : Int) - t), some (((h : Int) - s - 1) + 1), some k)) := by
    rw [verifyKey_slc_slc, hny]
    simp [negSlc, negBound, hh]
  have hlog : logicalYs h (getitemRegion p (none, none, none)
      (some ((h : Int) - t), some (((h : Int) - s - 1) + 1), some k)) =
      (List.range (sliceCount s t k)).map (fun j => t - 1 - j * k) := by
    unfold logicalYs getitemRegion
    simp only
    rw [hrows, applySlice_range_eq]
    have hb : ((h : Int) - s - 1) + 1 = (h : Int) - s := by ring
    rw [hb, sliceIndices_flip_eq h s t k hst hth, List.map_map]
    apply List.map_congr_left
    intro j hj
    rw [List.mem_range] at hj
    have hjk := sliceStep_bound s t k j hj
    simp only [Function.comp]
    omega
  refine ⟨getitemRegion p (none, none, none)
      (some ((h : Int) - t), some (((h : Int) - s - 1) + 1), some k), ?_, hlog, ?_⟩
  · unfold getitem
    rw [hvk]
  · intro hk1
    subst hk1
    intro yy
    rw [hlog]
    have hcnt : sliceCount s t 1 = t - s := by
      unfold sliceCount
      rw [Nat.add_sub_cancel, Nat.div_one]
    rw [hcnt, List.mem_map]
    constructor
    · rintro ⟨j, hj, rfl⟩
      rw [List.mem_range] at hj
      omega
    · rintro ⟨hy1, hy2⟩
      refine ⟨t - 1 - yy, ?_, by omega⟩
      rw [List.mem_range]
      omega

/-- Witness for C4 on a 5×1 buffer with the range s = 1, t = 5, k = 2. -/
theorem C4_region_y_selection_witness :
    ∃ q, getitem gZero (fromDims 5 1) (.slc none none none)
        (.slc (some ((1 : Nat) : Int)) (some ((5 : Nat) : Int)) (some 2)) = .ok (.pic q) ∧
      logicalYs 5 q = (List.range (sliceCount 1 5 2)).map (fun j => 5 - 1 - j * 2) ∧
      (2 = 1 → ∀ yy, yy ∈ logicalYs 5 q ↔ (1 ≤ yy ∧ yy < 5)) :=
  C4_region_y_selection gZero (fromDims 5 1) 5 1 1 5 2 rfl rfl (by decide) (by decide)
    (by decide)

/-- C9 counterexample: the claim says a mixed key whose integer is out of
range yields an empty region; for `pic[:, 5]` on a 4×1 buffer the flipped
one-element y range has negative bounds, which wrap from the end and
select internal row 2 — a region of one cell, not zero. -/
theorem C9_cex_wrap_nonempty :
    getitem gZero (fromDims 4 1) (.slc none none none) (.idx 5) = .ok (.pic qWrap) ∧
    qWrap.height * qWrap.width = 1 ∧ (1 : Nat) ≠ 0 :=
  ⟨rfl, rfl, by decide⟩

/-- C9 (amended): a key mixing an integer i with a range is a region
access with i converted to the range [i, i+1) and not bounds-checked:
a negative i raises the index error; on the x axis any i ≥ width gives an
empty region; on the y axis i = height gives an empty region, but for
height < i ≤ 2·height - 1 the flipped bounds are negative, wrap from the
end, and select the single internal row 2·height - 1 - i — a nonempty
region. -/
theorem C9_mixed_int_slice (g : Grid) (p : Picture) (h w : Nat) (i : Int)
    (hrows : p.rows = List.range h) (hcols : p.cols = List.range w) :
    (i < 0 →
      getitem g p (.idx i) (.slc none none none) =
        .error (.indexError "Negative slicing not supported") ∧
      getitem g p (.slc none none none) (.idx i) =
        .error (.indexError "Negative slicing not supported")) ∧
    ((w : Int) ≤ i →
      ∃ q, getitem g p (.idx i) (.slc none none none) = .ok (.pic q) ∧ q.cols = []) ∧
    (i = (h : Int) →
      ∃ q, getitem g p (.slc none none none) (.idx i) = .ok (.pic q) ∧ q.rows = []) ∧
    ((h : Int) < i → i ≤ 2 * (h : Int) - 1 →
      ∃ q, getitem g p (.slc none none none) (.idx i) = .ok (.pic q) ∧
        q.rows = [2 * h - 1 - i.toNat]) := by
  have hh : p.height = h := by rw [Picture.height, hrows, List.length_range]
  have hnone : negSlc ((none : Option Int), (none : Option Int), (none : Option Nat)) =
      false := rfl
  refine ⟨?_, ?_, ?_, ?_⟩
  · intro hi
    have hcond : negSlc (some i, some (i + 1), (none : Option Nat)) = true := by
      simp [negSlc, negBound]
      omega
    constructor
    · unfold getitem
      rw [verifyKey_idx_slc, hcond]
      rfl
    · unfold getitem
      rw [verifyKey_slc_idx, hcond, hnone]
      rfl
  · intro hi
    have hcond : negSlc (some i, some (i + 1), (none : Option Nat)) = false := by
      simp [negSlc, negBound]
      omega
    have hvk : verifyKey p.width p.height (.idx i) (.slc none none none) =
        .ok (.region (some i, some (i + 1), none)
          (some ((h : Int) - (h : Int)), some (((h : Int) - 0 - 1) + 1), none)) := by
      rw [verifyKey_idx_slc, hcond, hnone]
      simp [hh]
    refine ⟨getitemRegion p (some i, some (i + 1), none)
        (some ((h : Int) - (h : Int)), some (((h : Int) - 0 - 1) + 1), none), ?_, ?_⟩
    · unfold getitem
      rw [hvk]
    · show applySlice p.cols (some i, some (i + 1), none) = []
      rw [hcols, applySlice_range_eq]
      exact sliceIndices_int_ge w i hi
  · intro hi
    subst hi
    have hcond : negSlc (some ((h : Nat) : Int), some (((h : Nat) : Int) + 1),
        (none : Option Nat)) = false := by
      simp [negSlc, negBound]
      omega
    have hvk : verifyKey p.width p.height (.slc none none none) (.idx ((h : Nat) : Int)) =
        .ok (.region (none, none, none)
          (some ((h : Int) - ((h : Int) + 1)), some (((h : Int) - (h : Int) - 1) + 1),
           none)) := by
      rw [verifyKey_slc_idx, hnone, hcond]
      simp [hh]
    refine ⟨getitemRegion p (none, none, none)
        (some ((h : Int) - ((h : Int) + 1)), some (((h : Int) - (h : Int) - 1) + 1), none),
        ?_, ?_⟩
    · unfold getitem
      rw [hvk]
    · show applySlice p.rows
        (some ((h : Int) - ((h : Int) + 1)), some (((h : Int) - (h : Int) - 1) + 1), none) = []
      rw [hrows, applySlice_range_eq]
      exact sliceIndices_y_idx_h h
  · intro hi1 hi2
    have hcond : negSlc (some i, some (i + 1), (none : Option Nat)) = false := by
      simp [negSlc, negBound]
      omega
    have hvk : verifyKey p.width p.height (.slc none none none) (.idx i) =
        .ok (.region (none, none, none)
          (some ((h : Int) - (i + 1)), some (((h : Int) - i - 1) + 1), none)) := by
      rw [verifyKey_slc_idx, hnone, hcond]
      simp [hh]
    refine ⟨getitemRegion p (none, none, none)
        (some ((h : Int) - (i + 1)), some (((h : Int) - i - 1) + 1), none), ?_, ?_⟩
    · unfold getitem
      rw [hvk]
    · show applySlice p.rows
        (some ((h : Int) - (i + 1)), some (((h : Int) - i - 1) + 1), none) =
        [2 * h - 1 - i.toNat]
      rw [hrows, applySlice_range_eq, sliceIndices_wrap h i hi1 hi2]

/-- Witness for C9 on a 4×1 buffer: negative index -1, x index 5 ≥ width,
y index 4 = height (empty), and y index 5 (wraps to internal row 2). -/
theorem C9_mixed_int_slice_witness :
    (getitem gZero (fromDims 4 1) (.idx (-1)) (.slc none none none) =
       .error (.indexError "Negative slicing not supported") ∧
     getitem gZero (fromDims 4 1) (.slc none none none) (.idx (-1)) =
       .error (.indexError "Negative slicing not supported")) ∧
    (∃ q, getitem gZero (fromDims 4 1) (.idx 5) (.slc none none none) = .ok (.pic q) ∧
       q.cols = []) ∧
    (∃ q, getitem gZero (fromDims 4 1) (.slc none none none) (.idx ((4 : Nat) : Int)) =
       .ok (.pic q) ∧ q.rows = []) ∧
    (∃ q, getitem gZero (fromDims 4 1) (.slc none none none) (.idx 5) = .ok (.pic q) ∧
       q.rows = [2 * 4 - 1 - (5 : Int).toNat]) := by
  have T1 := C9_mixed_int_slice gZero (fromDims 4 1) 4 1 (-1) rfl rfl
  have T2 := C9_mixed_int_slice gZero (fromDims 4 1) 4 1 5 rfl rfl
  have T3 := C9_mixed_int_slice gZero (fromDims 4 1) 4 1 ((4 : Nat) : Int) rfl rfl
  exact ⟨T1.1 (by decide), T2.2.1 (by decide), T3.2.2.1 (by decide),
    T2.2.2.2 (by decide) (by decide)⟩

/-- C1 counterexample: the region `pic[0:1, 0:1]` of a 2×2 black buffer is
a live view of the source array, not a copy: writing (9, 9, 9) through
a pixel of the region changes a cell of the source buffer, contradicting the
claim that every cell of the source is unchanged. -/
theorem C1_cex_region_aliases_source :
    getitem gZero (fromDims 2 2) (.slc (some 0) (some 1) none) (.slc (some 0) (some 1) none) =
      .ok (.pic qCorner) ∧
    ∃ g' q' px',
      pixelSetRgb gZero qCorner (makepixel gZero qCorner 0 0) (.vint 9) (.vint 9) (.vint 9) =
        .ok (g', q', px') ∧
      readCell g' (fromDims 2 2) 1 0 ≠ readCell gZero (fromDims 2 2) 1 0 := by
  refine ⟨rfl, writeGrid gZero 1 0 (9, 9, 9), setmodified qCorner, ⟨0, 0, 9, 9, 9⟩, rfl, ?_⟩
  decide

theorem contains_true_of_mem (l : List Nat) (a : Nat) (h : a ∈ l) :
    l.contains a = true := by
  simp [List.contains, h]

theorem contains_false_of_not_mem (l : List Nat) (a : Nat) (h : a ∉ l) :
    l.contains a = false := by
  simp [List.contains, h]

theorem map_getD_range_self (l : List Nat) :
    (List.range l.length).map (fun i => l.getD i 0) = l := by
  apply List.ext_getElem
  · simp
  · intro i h1 h2
    simp only [List.getElem_map, List.getElem_range]
    rw [List.getD_eq_getElem?_getD, List.getElem?_eq_getElem h2]
    rfl

theorem sliceCount_zero_full (n : Nat) : sliceCount 0 n 1 = n := by
  unfold sliceCount
  rw [Nat.sub_zero, Nat.add_sub_cancel, Nat.div_one]

theorem sliceIndices_all (n : Nat) : sliceIndices n none none none = List.range n := by
  rw [sliceIndices_eq]
  simp only [Option.getD_none]
  have e1 : normIdx n 0 = 0 := by
    unfold normIdx
    rw [if_neg (by omega)]
    simp
  have e2 : normIdx n (n : Int) = n := by
    unfold normIdx
    rw [if_neg (by omega)]
    simp
  rw [e1, e2, sliceCount_zero_full]
  have e3 : ∀ j ∈ List.range n, 0 + j * 1 = j := by
    intro j _
    omega
  rw [List.map_congr_left e3]
  simp

theorem applySlice_all (l : List Nat) : applySlice l (none, none, none) = l := by
  show (sliceIndices l.length none none none).map (fun i => l.getD i 0) = l
  rw [sliceIndices_all]
  exact map_getD_range_self l

theorem sliceIndices_full_flip (n : Nat) :
    sliceIndices n (some ((n : Int) - (n : Int))) (some (((n : Int) - 0 - 1) + 1)) none =
      List.range n := by
  rw [sliceIndices_eq]
  simp only [Option.getD_some, Option.getD_none]
  have e1 : normIdx n ((n : Int) - (n : Int)) = 0 := by
    unfold normIdx
    rw [if_neg (by omega)]
    have e : ((n : Int) - (n : Int)).toNat = 0 := by omega
    rw [e]
    exact Nat.zero_min n
  have e2 : normIdx n (((n : Int) - 0 - 1) + 1) = n := by
    unfold normIdx
    rw [if_neg (by omega)]
    have e : (((n : Int) - 0 - 1) + 1).toNat = n := by omega
    rw [e]
    simp
  rw [e1, e2, sliceCount_zero_full]
  have e3 : ∀ j ∈ List.range n, 0 + j * 1 = j := by
    intro j _
    omega
  rw [List.map_congr_left e3]
  simp

theorem applySlice_full_flip (l : List Nat) :
    applySlice l (some ((l.length : Int) - (l.length : Int)),
      some (((l.length : Int) - 0 - 1) + 1), none) = l := by
  show (sliceIndices l.length (some ((l.length : Int) - (l.length : Int)))
      (some (((l.length : Int) - 0 - 1) + 1)) none).map (fun i => l.getD i 0) = l
  rw [sliceIndices_full_flip]
  exact map_getD_range_self l

/-- C1 (amended): getting a region returns a new Picture object wrapping a
live view of the backing array of the source (numpy basic slicing returns
a view, and `from_array` keeps the uint8 array without copying).  For a
region q of a full-view source p of height h and width w:
every cell q selects lies inside the view of p; a single-pixel write at
region coordinate (x, y) stores into exactly the corresponding source
cell — internal cell (RR, CC) with RR the root row q selects for region
row q.height - y - 1 and CC the root column for x — so a fresh source get
at logical (CC, h - 1 - RR) returns the written triple while every other
source cell is unchanged; a region (broadcast) write through q colors
exactly the selected source cells and leaves every source cell outside
the selection unchanged; and vice versa, a source write at that
corresponding cell is seen by a fresh region get at (x, y) while region
cells mapping to other root cells are unchanged. -/
theorem C1_region_is_view (g : Grid) (p : Picture) (h w : Nat) (k1 k2 : Key) (q : Picture)
    (hrows : p.rows = List.range h) (hcols : p.cols = List.range w)
    (hq : getitem g p k1 k2 = .ok (.pic q))
    (x y r gc b : Nat) (hx : x < q.width) (hy : y < q.height)
    (hr : r ≤ 255) (hg : gc ≤ 255) (hb : b ≤ 255) (c : Int × Int × Int) :
    (∀ a ∈ q.rows, a < h) ∧ (∀ a ∈ q.cols, a < w) ∧
    (∃ g1 q1 px1,
      pixelSetRgb g q (makepixel g q x y) (.vint r) (.vint gc) (.vint b) = .ok (g1, q1, px1) ∧
      q.rows.getD (q.height - y - 1) 0 < h ∧ q.cols.getD x 0 < w ∧
      readCell g1 p (q.rows.getD (q.height - y - 1) 0) (q.cols.getD x 0) = (r, gc, b) ∧
      (makepixel g1 p (q.cols.getD x 0) (h - 1 - q.rows.getD (q.height - y - 1) 0)).rgb
        = (r, gc, b) ∧
      (∀ i j, i < h → j < w →
        ¬(i = q.rows.getD (q.height - y - 1) 0 ∧ j = q.cols.getD x 0) →
        readCell g1 p i j = readCell g p i j)) ∧
    (∃ g2, setitemColor g q (.slc none none none) (.slc none none none) c =
        .ok (g2, setmodified q) ∧
      (∀ i ∈ q.rows, ∀ j ∈ q.cols,
        readCell g2 p i j = (toU8 c.1, toU8 c.2.1, toU8 c.2.2)) ∧
      (∀ i j, i < h → j < w → ¬(i ∈ q.rows ∧ j ∈ q.cols) →
        readCell g2 p i j = readCell g p i j)) ∧
    (∃ g3 p3 px3,
      pixelSetRgb g p
          (makepixel g p (q.cols.getD x 0) (h - 1 - q.rows.getD (q.height - y - 1) 0))
          (.vint r) (.vint gc) (.vint b) = .ok (g3, p3, px3) ∧
      (makepixel g3 q x y).rgb = (r, gc, b) ∧
      (∀ x' y', x' < q.width → y' < q.height →
        ¬(q.rows.getD (q.height - y' - 1) 0 = q.rows.getD (q.height - y - 1) 0 ∧
          q.cols.getD x' 0 = q.cols.getD x 0) →
        (makepixel g3 q x' y').rgb = (makepixel g q x' y').rgb)) := by
  have hreg : ∃ kx ky, q = getitemRegion p kx ky := by
    unfold getitem at hq
    rcases hvk : verifyKey p.width p.height k1 k2 with e | vk
    · rw [hvk] at hq
      simp at hq
    · rcases vk with ⟨a, b'⟩ | ⟨kx, ky⟩
      · rw [hvk] at hq
        simp at hq
      · rw [hvk] at hq
        simp at hq
        exact ⟨kx, ky, hq.symm⟩
  obtain ⟨kx, ky, rfl⟩ := hreg
  set Q := getitemRegion p kx ky with hQdef
  have hh : p.height = h := by rw [Picture.height, hrows, List.length_range]
  have hrowlt : ∀ a ∈ Q.rows, a < h := by
    intro a ha
    have he : Q.rows = applySlice p.rows ky := rfl
    rw [he, hrows] at ha
    exact applySlice_range_lt h ky a ha
  have hcollt : ∀ a ∈ Q.cols, a < w := by
    intro a ha
    have he : Q.cols = applySlice p.cols kx := rfl
    rw [he, hcols] at ha
    exact applySlice_range_lt w kx a ha
  have hlen : Q.height = Q.rows.length := rfl
  have hidx : Q.height - y - 1 < Q.rows.length := by omega
  set RR := Q.rows.getD (Q.height - y - 1) 0 with hRRdef
  set CC := Q.cols.getD x 0 with hCCdef
  have hRR : RR < h := hrowlt _ (getD_mem_of_lt _ _ hidx)
  have hCC : CC < w := hcollt _ (getD_mem_of_lt _ _ hx)
  refine ⟨hrowlt, hcollt, ?_, ?_, ?_⟩
  · -- single-pixel write through the region
    refine ⟨writeGrid g RR CC (r, gc, b), setmodified Q,
      { makepixel g Q x y with red := r, green := gc, blue := b },
      pixelSetRgb_vint_run g Q (makepixel g Q x y) r gc b hr hg hb, hRR, hCC, ?_, ?_, ?_⟩
    · unfold readCell
      rw [hrows, hcols, getD_range_eq h RR hRR, getD_range_eq w CC hCC]
      show (if RR = RR ∧ CC = CC then ((r, gc, b) : RGB) else g RR CC) = (r, gc, b)
      simp
    · show readCell (writeGrid g RR CC (r, gc, b)) p (p.height - (h - 1 - RR) - 1) CC
        = (r, gc, b)
      unfold readCell
      have e : p.height - (h - 1 - RR) - 1 = RR := by
        rw [hh]
        omega
      rw [hrows, hcols, e, getD_range_eq h RR hRR, getD_range_eq w CC hCC]
      show (if RR = RR ∧ CC = CC then ((r, gc, b) : RGB) else g RR CC) = (r, gc, b)
      simp
    · intro i j hih hjw hne
      unfold readCell
      rw [hrows, hcols, getD_range_eq h i hih, getD_range_eq w j hjw]
      show (if i = RR ∧ j = CC then ((r, gc, b) : RGB) else g i j) = g i j
      rw [if_neg hne]
  · -- region (broadcast) write through the region
    have hvkq : verifyKey Q.width Q.height (.slc none none none) (.slc none none none) =
        .ok (.region (none, none, none)
          (some ((Q.height : Int) - (Q.height : Int)),
           some (((Q.height : Int) - 0 - 1) + 1), none)) := rfl
    have hsc : setitemColor g Q (.slc none none none) (.slc none none none) c =
        .ok (broadcastRgb g (getitemRegion Q (none, none, none)
          (some ((Q.height : Int) - (Q.height : Int)),
           some (((Q.height : Int) - 0 - 1) + 1), none)) c, setmodified Q) := by
      unfold setitemColor
      rw [hvkq]
    have hq2rows : (getitemRegion Q (none, none, none)
        (some ((Q.height : Int) - (Q.height : Int)),
         some (((Q.height : Int) - 0 - 1) + 1), none)).rows = Q.rows := by
      show applySlice Q.rows (some ((Q.height : Int) - (Q.height : Int)),
        some (((Q.height : Int) - 0 - 1) + 1), none) = Q.rows
      exact applySlice_full_flip Q.rows
    have hq2cols : (getitemRegion Q (none, none, none)
        (some ((Q.height : Int) - (Q.height : Int)),
         some (((Q.height : Int) - 0 - 1) + 1), none)).cols = Q.cols := by
      show applySlice Q.cols (none, none, none) = Q.cols
      exact applySlice_all Q.cols
    refine ⟨_, hsc, ?_, ?_⟩
    · intro i hi j hj
      have hih : i < h := hrowlt i hi
      have hjw : j < w := hcollt j hj
      unfold readCell
      rw [hrows, hcols, getD_range_eq h i hih, getD_range_eq w j hjw]
      unfold broadcastRgb
      rw [hq2rows, hq2cols, contains_true_of_mem Q.rows i hi,
        contains_true_of_mem Q.cols j hj]
      simp
    · intro i j hih hjw hne
      unfold readCell
      rw [hrows, hcols, getD_range_eq h i hih, getD_range_eq w j hjw]
      unfold broadcastRgb
      rw [hq2rows, hq2cols]
      have hcondf : (Q.rows.contains i && Q.cols.contains j) = false := by
        by_cases h1 : i ∈ Q.rows
        · have h2 : j ∉ Q.cols := fun hjc => hne ⟨h1, hjc⟩
          rw [contains_false_of_not_mem Q.cols j h2, Bool.and_false]
        · rw [contains_false_of_not_mem Q.rows i h1, Bool.false_and]
      rw [hcondf]
      simp
  · -- vice versa: a source write is seen through the region
    refine ⟨writeGrid g RR CC (r, gc, b), setmodified p,
      { makepixel g p CC (h - 1 - RR) with red := r, green := gc, blue := b }, ?_, ?_, ?_⟩
    · have hrun := pixelSetRgb_vint_run g p (makepixel g p CC (h - 1 - RR)) r gc b hr hg hb
      have e1 : p.rows.getD (p.height - (h - 1 - RR) - 1) 0 = RR := by
        rw [hrows]
        have e : p.height - (h - 1 - RR) - 1 = RR := by
          rw [hh]
          omega
        rw [e, getD_range_eq h RR hRR]
      have e2 : p.cols.getD CC 0 = CC := by
        rw [hcols, getD_range_eq w CC hCC]
      rw [show (makepixel g p CC (h - 1 - RR)).y = h - 1 - RR from rfl,
          show (makepixel g p CC (h - 1 - RR)).x = CC from rfl, e1, e2] at hrun
      exact hrun
    · show readCell (writeGrid g RR CC (r, gc, b)) Q (Q.height - y - 1) x = (r, gc, b)
      unfold readCell
      rw [← hRRdef, ← hCCdef]
      show (if RR = RR ∧ CC = CC then ((r, gc, b) : RGB) else g RR CC) = (r, gc, b)
      simp
    · intro x' y' hx' hy' hne
      show readCell (writeGrid g RR CC (r, gc, b)) Q (Q.height - y' - 1) x' =
        readCell g Q (Q.height - y' - 1) x'
      unfold readCell
      show (if Q.rows.getD (Q.height - y' - 1) 0 = RR ∧ Q.cols.getD x' 0 = CC
        then ((r, gc, b) : RGB)
        else g (Q.rows.getD (Q.height - y' - 1) 0) (Q.cols.getD x' 0)) =
        g (Q.rows.getD (Q.height - y' - 1) 0) (Q.cols.getD x' 0)
      rw [if_neg hne]

/-- Witness for C1 at the 2×2 black buffer and its region `pic[0:1, 0:1]`
(the bottom-left cell, root cell (1, 0)), with the pixel triple (9, 9, 9)
and the broadcast color (5, 6, 7). -/
theorem C1_region_is_view_witness :
    (∀ a ∈ qCorner.rows, a < 2) ∧ (∀ a ∈ qCorner.cols, a < 2) ∧
    (∃ g1 q1 px1,
      pixelSetRgb gZero qCorner (makepixel gZero qCorner 0 0) (.vint 9) (.vint 9) (.vint 9) =
        .ok (g1, q1, px1) ∧
      (1 : Nat) < 2 ∧ (0 : Nat) < 2 ∧
      readCell g1 (fromDims 2 2) 1 0 = (9, 9, 9) ∧
      (makepixel g1 (fromDims 2 2) 0 0).rgb = (9, 9, 9) ∧
      (∀ i j, i < 2 → j < 2 → ¬(i = 1 ∧ j = 0) →
        readCell g1 (fromDims 2 2) i j = readCell gZero (fromDims 2 2) i j)) ∧
    (∃ g2, setitemColor gZero qCorner (.slc none none none) (.slc none none none) (5, 6, 7) =
        .ok (g2, setmodified qCorner) ∧
      (∀ i ∈ qCorner.rows, ∀ j ∈ qCorner.cols,
        readCell g2 (fromDims 2 2) i j = (5, 6, 7)) ∧
      (∀ i j, i < 2 → j < 2 → ¬(i ∈ qCorner.rows ∧ j ∈ qCorner.cols) →
        readCell g2 (fromDims 2 2) i j = readCell gZero (fromDims 2 2) i j)) ∧
    (∃ g3 p3 px3,
      pixelSetRgb gZero (fromDims 2 2) (makepixel gZero (fromDims 2 2) 0 0)
          (.vint 9) (.vint 9) (.vint 9) = .ok (g3, p3, px3) ∧
      (makepixel g3 qCorner 0 0).rgb = (9, 9, 9) ∧
      (∀ x' y', x' < qCorner.width → y' < qCorner.height →
        ¬(qCorner.rows.getD (qCorner.height - y' - 1) 0 = 1 ∧
          qCorner.cols.getD x' 0 = 0) →
        (makepixel g3 qCorner x' y').rgb = (makepixel gZero qCorner x' y').rgb)) :=
  C1_region_is_view gZero (fromDims 2 2) 2 2 (.slc (some 0) (some 1) none)
    (.slc (some 0) (some 1) none) qCorner rfl rfl rfl 0 0 9 9 9 (by decide) (by decide)
    (by decide) (by decide) (by decide) (5, 6, 7)

end Novice
